import Mathlib

/-!
# User management backend: the four handlers of `app.js` over the `users` table

The development embeds `src/app.js`:

* the table created by `createTable` (lines 35-43): an `INTEGER PRIMARY KEY
  AUTOINCREMENT` id and four `TEXT NOT NULL` columns, `email` also `UNIQUE`;
* the SQL statements the handlers send, with the meaning the schema gives them
  (NULL comparison, NOT NULL, UNIQUE, AUTOINCREMENT);
* the handlers `app.get('/users')`, `app.post('/users')`, `app.put('/users/:id')`
  and `app.delete('/users/:id')` as functions from a table to a response, a
  table and the list of statements sent.

Each handler is one atomic step on the table: the callbacks of one request run
with no other request in between.

A field of the request body is the value bound to the statement: NULL for an
absent or null field, text otherwise. The route parameter `:id` is the number
the INTEGER column compares it with; a parameter that is no number behaves as
an id that no row has. An id leaves the store as a JavaScript number
(`this.lastID`, the `id` of a row in `res.json(rows)`): the double nearest to
the 64-bit integer. Errors of the driver other than constraint violations
are an input of each handler (`Faults`), and a statement that raises an error
leaves the table as it was.
-/

namespace UserApi

/-! ## Data model -/

/-- One row of `users`. A column value is `none` for SQL NULL. -/
structure Row where
  id : Nat
  firstName : Option String
  lastName : Option String
  email : Option String
  department : Option String
deriving DecidableEq, Repr

/-- The four fields `const { firstName, lastName, email, department } = req.body`
as they are bound to a statement: `none` when the field is absent or null (bound
as SQL NULL), `some t` for the text the TEXT column receives. -/
structure Body where
  firstName : Option String
  lastName : Option String
  email : Option String
  department : Option String
deriving DecidableEq, Repr

/-- The table `users` together with the AUTOINCREMENT counter kept for it (the
largest id ever handed out). -/
structure Db where
  rows : List Row
  seq : Nat
deriving DecidableEq, Repr

/-- `createTable`, lines 33-49: `CREATE TABLE IF NOT EXISTS users (...)` makes the
table with no rows and the counter at zero when there is none, and leaves an
existing table as it is. -/
def createTable : Option Db → Db
  | none => ⟨[], 0⟩
  | some db => db

/-- The empty table: `createTable` on a database that has no `users` table. -/
def emptyDb : Db := createTable none

/-- Errors the driver reports that do not come from a constraint (I/O failure,
missing table, full database): `lookup` for the handler's first statement
(`db.all` / `db.get`), `write` for its `db.run`. -/
structure Faults where
  lookup : Bool
  write : Bool
deriving DecidableEq, Repr

/-- No driver error. -/
def noFaults : Faults := ⟨false, false⟩

/-- The statements the handlers send. -/
inductive Stmt where
  | selectAll
  | selectByEmail (email : Option String)
  | selectById (id : Nat)
  | insert (b : Body)
  | update (id : Nat) (b : Body)
  | delete (id : Nat)
deriving DecidableEq, Repr

/-- Response bodies: nothing (`send()`), `{ error }`, `{ message }`,
`{ id, message }` and the array of rows. -/
inductive Payload where
  | empty
  | error (msg : String)
  | message (msg : String)
  | created (id : Nat) (msg : String)
  | rows (rs : List Row)
deriving DecidableEq, Repr

/-- An HTTP response: status code and body. -/
structure Response where
  status : Nat
  body : Payload
deriving DecidableEq, Repr

/-- What one request does: the response, the table afterwards, the statements sent. -/
structure Outcome where
  res : Response
  db : Db
  log : List Stmt
deriving DecidableEq, Repr

/-! ## SQL statements over the schema of `createTable` -/

/-- SQL `=` on TEXT values as a WHERE clause or a UNIQUE index sees it: NULL is
equal to nothing. -/
def sqlEq (a b : Option String) : Bool :=
  match a, b with
  | some x, some y => x == y
  | _, _ => false

/-- `SELECT * FROM users`. -/
def selectAll (db : Db) : List Row := db.rows

/-- `SELECT * FROM users WHERE email = ?` through `db.get`: the first match. -/
def selectByEmail (db : Db) (email : Option String) : Option Row :=
  db.rows.find? (fun r => sqlEq r.email email)

/-- `SELECT * FROM users WHERE id = ?` through `db.get`: the first match. -/
def selectById (db : Db) (id : Nat) : Option Row :=
  db.rows.find? (fun r => r.id == id)

/-- The four `NOT NULL` constraints on the values of a new or updated row. -/
def notNullOk (b : Body) : Bool :=
  b.firstName.isSome && b.lastName.isSome && b.email.isSome && b.department.isSome

/-- The `UNIQUE` constraint on `email` for an INSERT: no row holds the value. -/
def uniqueOk (db : Db) (email : Option String) : Bool :=
  !(db.rows.any (fun r => sqlEq r.email email))

/-- The `UNIQUE` constraint on `email` for an UPDATE of row `id`: no other row
holds the value. -/
def uniqueOkExcept (db : Db) (id : Nat) (email : Option String) : Bool :=
  !(db.rows.any (fun r => r.id != id && sqlEq r.email email))

/-- Largest id among the rows, zero for no rows. -/
def maxRowid (rows : List Row) : Nat :=
  rows.foldr (fun r m => max r.id m) 0

/-- The id `AUTOINCREMENT` gives the next row: one more than the largest id the
table has ever held. -/
def nextRowid (db : Db) : Nat :=
  max db.seq (maxRowid db.rows) + 1

/-- The row an INSERT or UPDATE writes for id `id`. -/
def mkRow (id : Nat) (b : Body) : Row :=
  ⟨id, b.firstName, b.lastName, b.email, b.department⟩

/-- `INSERT INTO users (firstName, lastName, email, department) VALUES (?, ?, ?, ?)`:
`none` when a constraint rejects the row, else the new table and `this.lastID`. -/
def insertUser (db : Db) (b : Body) : Option (Db × Nat) :=
  if notNullOk b && uniqueOk db b.email then
    some (⟨db.rows ++ [mkRow (nextRowid db) b], nextRowid db⟩, nextRowid db)
  else
    none

/-- `UPDATE users SET firstName = ?, lastName = ?, email = ?, department = ? WHERE id = ?`:
`none` when a constraint rejects the new values; no matching row is no change. -/
def updateUser (db : Db) (id : Nat) (b : Body) : Option Db :=
  if db.rows.any (fun r => r.id == id) then
    if notNullOk b && uniqueOkExcept db id b.email then
      some ⟨db.rows.map (fun r => if r.id == id then mkRow r.id b else r), db.seq⟩
    else
      none
  else
    some db

/-- `DELETE FROM users WHERE id = ?`. -/
def deleteUser (db : Db) (id : Nat) : Db :=
  ⟨db.rows.filter (fun r => r.id != id), db.seq⟩

/-! ## Ids as JavaScript numbers -/

/-- Distance between neighbouring doubles at `n`, by halving at most `k` times:
1 below 2^53 and twice as much with every further bit. -/
def spacing : Nat → Nat → Nat
  | 0, _ => 1
  | k + 1, n => if n < 2 ^ 53 then 1 else 2 * spacing k (n / 2)

/-- A 64-bit integer of the store (`this.lastID`, the `id` column of a fetched
row) as the JavaScript number the handler sees: the nearest double, a tie going
to the even significand. Every integer below 2^53 is its own double. -/
def toNumber (n : Nat) : Nat :=
  let u := spacing 64 n
  let q := n / u
  let r := n % u
  if 2 * r < u then q * u
  else if u < 2 * r then (q + 1) * u
  else if q % 2 = 0 then q * u
  else (q + 1) * u

/-- A fetched row as `res.json` writes it: the id as a JavaScript number, the
four text columns as they are. -/
def jsonRow (r : Row) : Row :=
  ⟨toNumber r.id, r.firstName, r.lastName, r.email, r.department⟩

/-! ## Handlers -/

/-- `res.status(500).send({ error: 'Database error' })`. -/
def dbError : Response := ⟨500, .error "Database error"⟩

/-- `res.status(404).send({ message: 'User not found' })`. -/
def notFound : Response := ⟨404, .message "User not found"⟩

/-- `app.get('/users')`, lines 73-81. -/
def getUsers (f : Faults) (db : Db) : Outcome :=
  if f.lookup then
    ⟨dbError, db, [.selectAll]⟩
  else
    ⟨⟨200, .rows ((selectAll db).map jsonRow)⟩, db, [.selectAll]⟩

/-- `app.post('/users')`, lines 84-111. -/
def postUsers (f : Faults) (db : Db) (b : Body) : Outcome :=
  if f.lookup then
    ⟨dbError, db, [.selectByEmail b.email]⟩
  else
    match selectByEmail db b.email with
    | some _ =>
      ⟨⟨400, .message "User with this email already exists"⟩, db, [.selectByEmail b.email]⟩
    | none =>
      if f.write then
        ⟨dbError, db, [.selectByEmail b.email, .insert b]⟩
      else
        match insertUser db b with
        | none => ⟨dbError, db, [.selectByEmail b.email, .insert b]⟩
        | some (db', lastID) =>
          ⟨⟨201, .created (toNumber lastID) "User created successfully"⟩, db',
            [.selectByEmail b.email, .insert b]⟩

/-- `app.put('/users/:id')`, lines 114-142. -/
def putUsers (f : Faults) (db : Db) (id : Nat) (b : Body) : Outcome :=
  if f.lookup then
    ⟨dbError, db, [.selectById id]⟩
  else
    match selectById db id with
    | none => ⟨notFound, db, [.selectById id]⟩
    | some _ =>
      if f.write then
        ⟨dbError, db, [.selectById id, .update id b]⟩
      else
        match updateUser db id b with
        | none => ⟨dbError, db, [.selectById id, .update id b]⟩
        | some db' => ⟨⟨204, .empty⟩, db', [.selectById id, .update id b]⟩

/-- `app.delete('/users/:id')`, lines 145-168. -/
def deleteUsers (f : Faults) (db : Db) (id : Nat) : Outcome :=
  if f.lookup then
    ⟨dbError, db, [.selectById id]⟩
  else
    match selectById db id with
    | none => ⟨notFound, db, [.selectById id]⟩
    | some _ =>
      if f.write then
        ⟨dbError, db, [.selectById id, .delete id]⟩
      else
        ⟨⟨204, .empty⟩, deleteUser db id, [.selectById id, .delete id]⟩

/-! ## Sequences of requests -/

/-- A request to one of the four routes, with the driver errors it meets. -/
inductive Request where
  | get (f : Faults)
  | post (f : Faults) (b : Body)
  | put (f : Faults) (id : Nat) (b : Body)
  | delete (f : Faults) (id : Nat)
deriving DecidableEq, Repr

/-- Dispatch of a request to its handler. -/
def handle (db : Db) : Request → Outcome
  | .get f => getUsers f db
  | .post f b => postUsers f db b
  | .put f id b => putUsers f db id b
  | .delete f id => deleteUsers f db id

/-- The table after a sequence of requests, served one after the other. -/
def run (db : Db) : List Request → Db
  | [] => db
  | q :: qs => run (handle db q).db qs

/-- The responses to a sequence of requests, in request order. -/
def responses (db : Db) : List Request → List Response
  | [] => []
  | q :: qs => (handle db q).res :: responses (handle db q).db qs

/-- The id a response announces when it is the 201 of `POST /users`: the
JavaScript number in its body. -/
def createdId (r : Response) : Option Nat :=
  match r with
  | ⟨201, .created id _⟩ => some id
  | _ => none

/-- The ids returned by the 201 responses of a sequence, in request order. -/
def createdIds (db : Db) (qs : List Request) : List Nat :=
  (responses db qs).filterMap createdId

/-! ## The schema as a predicate on tables -/

/-- PRIMARY KEY: no two rows share an id. -/
def UniqueIds (db : Db) : Prop := (db.rows.map (fun r => r.id)).Nodup

/-- UNIQUE(email): no two rows share an email. -/
def UniqueEmails (db : Db) : Prop := (db.rows.map (fun r => r.email)).Nodup

/-- NOT NULL on the four text columns of a row. -/
def RowNotNull (r : Row) : Prop :=
  r.firstName ≠ none ∧ r.lastName ≠ none ∧ r.email ≠ none ∧ r.department ≠ none

/-- NOT NULL on the four text columns of every row. -/
def NotNullCols (db : Db) : Prop := ∀ r ∈ db.rows, RowNotNull r

/-- A table that satisfies the constraints of `createTable`. -/
def Schema (db : Db) : Prop := UniqueIds db ∧ UniqueEmails db ∧ NotNullCols db

/-- A sequence that takes the table `createTable` makes to the empty table with
counter `n`: `n` times, the POST of one and the same user and the DELETE of the
row it made. -/
def churn : Nat → List Request
  | 0 => []
  | n + 1 =>
    churn n ++ [.post noFaults ⟨some "Ann", some "Lee", some "ann@x.org", some "Ops"⟩,
      .delete noFaults (n + 1)]

/-- The AUTOINCREMENT counter covers the table: every id is at most the counter. -/
def Bounded (db : Db) : Prop := ∀ r ∈ db.rows, r.id ≤ db.seq

/-! ## Lemmas on the statements -/

theorem spacing_of_lt (k n : Nat) (h : n < 2 ^ 53) : spacing k n = 1 := by
  cases k with
  | zero => rfl
  | succ k => simp only [spacing]; rw [if_pos h]

theorem toNumber_of_lt (n : Nat) (h : n < 2 ^ 53) : toNumber n = n := by
  unfold toNumber
  rw [spacing_of_lt 64 n h]
  simp [Nat.mod_one]

theorem map_jsonRow_of_lt (rows : List Row) (h : ∀ r ∈ rows, r.id < 2 ^ 53) :
    rows.map jsonRow = rows := by
  induction rows with
  | nil => rfl
  | cons x xs ih =>
    have hx : jsonRow x = x := by
      simp only [jsonRow, toNumber_of_lt x.id (h x (List.mem_cons_self x xs))]
    rw [List.map_cons, hx, ih (fun r hr => h r (List.mem_cons_of_mem x hr))]

theorem sqlEq_eq_true_iff (a b : Option String) :
    sqlEq a b = true ↔ a ≠ none ∧ a = b := by
  cases a <;> cases b <;> simp [sqlEq]

theorem sqlEq_none_right (a : Option String) : sqlEq a none = false := by
  cases a <;> simp [sqlEq]

theorem selectByEmail_eq_none_iff (db : Db) (e : Option String) :
    selectByEmail db e = none ↔ ∀ r ∈ db.rows, sqlEq r.email e = false := by
  simp [selectByEmail, List.find?_eq_none]

theorem selectByEmail_of_mem (db : Db) (r : Row) (hr : r ∈ db.rows) (hnn : r.email ≠ none) :
    ∃ r', selectByEmail db r.email = some r' := by
  cases h : selectByEmail db r.email with
  | some r' => exact ⟨r', rfl⟩
  | none =>
    have h1 := (selectByEmail_eq_none_iff db r.email).1 h r hr
    have h2 : sqlEq r.email r.email = true := (sqlEq_eq_true_iff _ _).2 ⟨hnn, rfl⟩
    rw [h1] at h2
    exact absurd h2 (by decide)

theorem selectById_eq_none_iff (db : Db) (id : Nat) :
    selectById db id = none ↔ ∀ r ∈ db.rows, r.id ≠ id := by
  simp [selectById, List.find?_eq_none]

theorem selectById_of_mem (db : Db) (r : Row) (hr : r ∈ db.rows) :
    ∃ r', selectById db r.id = some r' := by
  cases h : selectById db r.id with
  | some r' => exact ⟨r', rfl⟩
  | none => exact absurd rfl ((selectById_eq_none_iff db r.id).1 h r hr)

theorem uniqueOk_eq_true_iff (db : Db) (e : Option String) :
    uniqueOk db e = true ↔ ∀ r ∈ db.rows, sqlEq r.email e = false := by
  simp [uniqueOk]

theorem notNullOk_eq_true_iff (b : Body) :
    notNullOk b = true ↔
      b.firstName ≠ none ∧ b.lastName ≠ none ∧ b.email ≠ none ∧ b.department ≠ none := by
  simp [notNullOk, Option.isSome_iff_ne_none, and_assoc]

theorem le_maxRowid (rows : List Row) (r : Row) (hr : r ∈ rows) : r.id ≤ maxRowid rows := by
  induction rows with
  | nil => exact absurd hr (List.not_mem_nil r)
  | cons x xs ih =>
    simp only [maxRowid, List.foldr_cons]
    rcases List.mem_cons.1 hr with h | h
    · subst h
      exact Nat.le_max_left _ _
    · exact Nat.le_trans (ih h) (Nat.le_max_right _ _)

theorem lt_nextRowid (db : Db) (r : Row) (hr : r ∈ db.rows) : r.id < nextRowid db := by
  have h := le_maxRowid db.rows r hr
  have h2 : maxRowid db.rows ≤ max db.seq (maxRowid db.rows) := Nat.le_max_right _ _
  unfold nextRowid
  omega

theorem seq_lt_nextRowid (db : Db) : db.seq < nextRowid db := by
  have h2 : db.seq ≤ max db.seq (maxRowid db.rows) := Nat.le_max_left _ _
  unfold nextRowid
  omega

theorem any_id_of_mem (db : Db) (r : Row) (hr : r ∈ db.rows) :
    db.rows.any (fun x => x.id == r.id) = true := by
  rw [List.any_eq_true]
  exact ⟨r, hr, by simp⟩

theorem updateUser_of_ok (db : Db) (b : Body) (r : Row) (hr : r ∈ db.rows)
    (hok : updateUser db r.id b ≠ none) :
    notNullOk b = true ∧ uniqueOkExcept db r.id b.email = true ∧
      updateUser db r.id b
        = some ⟨db.rows.map (fun x => if x.id == r.id then mkRow x.id b else x), db.seq⟩ := by
  have hany := any_id_of_mem db r hr
  cases hn : notNullOk b <;> cases hu : uniqueOkExcept db r.id b.email <;>
    simp [updateUser, hany, hn, hu] at hok ⊢

theorem length_filter_ne_id (rows : List Row) (r : Row)
    (hpk : (rows.map (fun x => x.id)).Nodup) (hr : r ∈ rows) :
    (rows.filter (fun x => x.id != r.id)).length + 1 = rows.length := by
  induction rows with
  | nil => exact absurd hr (List.not_mem_nil r)
  | cons x xs ih =>
    rw [List.map_cons, List.nodup_cons] at hpk
    by_cases hx : x.id = r.id
    · have hall : ∀ y ∈ xs, (y.id != r.id) = true := by
        intro y hy
        have hne : y.id ≠ x.id := fun h => hpk.1 (h ▸ List.mem_map_of_mem (fun x => x.id) hy)
        simpa [hx] using hne
      have hfx : (x.id != r.id) = false := by simp [hx]
      rw [List.filter_cons_of_neg (by simp [hx]), List.filter_eq_self.2 hall, List.length_cons]
    · have hrx : r ∈ xs := by
        rcases List.mem_cons.1 hr with h | h
        · exact absurd (h ▸ rfl) hx
        · exact h
      rw [List.filter_cons_of_pos (by simpa using hx), List.length_cons, List.length_cons,
        ih hpk.2 hrx]

/-! ## Preservation of the schema -/

theorem schema_of_no_rows (s : Nat) : Schema ⟨[], s⟩ := by
  simp [Schema, UniqueIds, UniqueEmails, NotNullCols]

theorem insertUser_schema (db db' : Db) (b : Body) (i : Nat) (hs : Schema db)
    (hins : insertUser db b = some (db', i)) : Schema db' := by
  obtain ⟨hid, hem, hnn⟩ := hs
  unfold insertUser at hins
  split at hins
  · rename_i hc
    simp only [Bool.and_eq_true] at hc
    obtain ⟨hnull, huniq⟩ := hc
    simp only [Option.some.injEq, Prod.mk.injEq] at hins
    obtain ⟨hdb, _⟩ := hins
    subst hdb
    obtain ⟨a1, a2, a3, a4⟩ := (notNullOk_eq_true_iff b).1 hnull
    refine ⟨?_, ?_, ?_⟩
    · simp only [UniqueIds, List.map_append, List.map_cons, List.map_nil]
      refine List.Nodup.append hid (List.nodup_singleton _) ?_
      intro x hx hx'
      obtain ⟨y, hy, hyx⟩ := List.mem_map.1 hx
      have hlt := lt_nextRowid db y hy
      rw [List.mem_singleton] at hx'
      simp only [mkRow] at hx'
      omega
    · simp only [UniqueEmails, List.map_append, List.map_cons, List.map_nil]
      refine List.Nodup.append hem (List.nodup_singleton _) ?_
      intro x hx hx'
      obtain ⟨y, hy, hyx⟩ := List.mem_map.1 hx
      rw [List.mem_singleton] at hx'
      simp only [mkRow] at hx'
      have hfalse := (uniqueOk_eq_true_iff db b.email).1 huniq y hy
      have htrue : sqlEq y.email b.email = true :=
        (sqlEq_eq_true_iff _ _).2 ⟨by rw [hyx, hx']; exact a3, by rw [hyx, hx']⟩
      rw [hfalse] at htrue
      exact absurd htrue (by decide)
    · intro x hx
      rcases List.mem_append.1 hx with h | h
      · exact hnn x h
      · rw [List.mem_singleton] at h
        subst h
        exact ⟨a1, a2, a3, a4⟩
  · exact absurd hins (by simp)

theorem updateUser_schema (db db' : Db) (id : Nat) (b : Body) (hs : Schema db)
    (hup : updateUser db id b = some db') : Schema db' := by
  unfold updateUser at hup
  split at hup
  · split at hup
    · rename_i hc
      simp only [Bool.and_eq_true] at hc
      obtain ⟨hnull, huniq⟩ := hc
      simp only [Option.some.injEq] at hup
      subst hup
      obtain ⟨hid, hem, hnn⟩ := hs
      obtain ⟨a1, a2, a3, a4⟩ := (notNullOk_eq_true_iff b).1 hnull
      have hother : ∀ x ∈ db.rows, x.id ≠ id → x.email ≠ b.email := by
        intro x hx hxid hxe
        simp only [uniqueOkExcept, Bool.not_eq_true', List.any_eq_false] at huniq
        apply huniq x hx
        have h2 : sqlEq x.email b.email = true :=
          (sqlEq_eq_true_iff _ _).2 ⟨hxe ▸ a3, hxe⟩
        simp [hxid, h2]
      have hidsame : (db.rows.map (fun r => if r.id == id then mkRow r.id b else r)).map
          (fun r => r.id) = db.rows.map (fun r => r.id) := by
        simp only [List.map_map]
        apply List.map_congr_left
        intro x _
        by_cases hx : x.id = id <;> simp [hx, mkRow]
      refine ⟨?_, ?_, ?_⟩
      · simp only [UniqueIds]
        rw [hidsame]
        exact hid
      · have hidp : db.rows.Pairwise (fun x y => x.id ≠ y.id) := by
          have := hid
          simp only [UniqueIds, List.Nodup, List.pairwise_map] at this
          exact this
        have hemp : db.rows.Pairwise (fun x y => x.email ≠ y.email) := by
          have := hem
          simp only [UniqueEmails, List.Nodup, List.pairwise_map] at this
          exact this
        simp only [UniqueEmails, List.Nodup, List.pairwise_map]
        refine List.Pairwise.imp_of_mem ?_ (hidp.and hemp)
        intro x y hx hy hxy
        obtain ⟨hne, hee⟩ := hxy
        by_cases hxid : x.id = id
        · have hyid : y.id ≠ id := fun h => hne (hxid.trans h.symm)
          simp only [hxid, beq_self_eq_true, if_true, mkRow]
          have : (y.id == id) = false := by simpa using hyid
          simp only [this]
          exact fun h => hother y hy hyid h.symm
        · have hx1 : (x.id == id) = false := by simpa using hxid
          by_cases hyid : y.id = id
          · simp only [hx1, hyid, beq_self_eq_true, if_true, mkRow]
            exact hother x hx hxid
          · have hy1 : (y.id == id) = false := by simpa using hyid
            simp only [hx1, hy1]
            exact hee
      · intro x hx
        obtain ⟨y, hy, hyx⟩ := List.mem_map.1 hx
        by_cases hyid : y.id = id
        · simp [hyid, mkRow] at hyx
          subst hyx
          exact ⟨a1, a2, a3, a4⟩
        · have : y = x := by simpa [hyid] using hyx
          exact this ▸ hnn y hy
    · exact absurd hup (by simp)
  · simp only [Option.some.injEq] at hup
    exact hup ▸ hs

theorem deleteUser_schema (db : Db) (id : Nat) (hs : Schema db) :
    Schema (deleteUser db id) := by
  obtain ⟨hid, hem, hnn⟩ := hs
  have hsub : List.Sublist (db.rows.filter (fun r => r.id != id)) db.rows :=
    List.filter_sublist db.rows
  refine ⟨?_, ?_, ?_⟩
  · exact List.Nodup.sublist (hsub.map _) hid
  · exact List.Nodup.sublist (hsub.map _) hem
  · intro x hx
    exact hnn x (List.mem_filter.1 hx).1

theorem handle_schema (db : Db) (q : Request) (hs : Schema db) : Schema (handle db q).db := by
  cases q with
  | get f =>
    simp only [handle, getUsers]
    split <;> exact hs
  | post f b =>
    simp only [handle, postUsers]
    split
    · exact hs
    · split
      · exact hs
      · split
        · exact hs
        · split
          · exact hs
          · rename_i db' i hins
            exact insertUser_schema db db' b i hs hins
  | put f id b =>
    simp only [handle, putUsers]
    split
    · exact hs
    · split
      · exact hs
      · split
        · exact hs
        · split
          · exact hs
          · rename_i db' hup
            exact updateUser_schema db db' id b hs hup
  | delete f id =>
    simp only [handle, deleteUsers]
    split
    · exact hs
    · split
      · exact hs
      · split
        · exact hs
        · exact deleteUser_schema db id hs

theorem run_schema (qs : List Request) : ∀ db : Db, Schema db → Schema (run db qs) := by
  induction qs with
  | nil => intro db hs; exact hs
  | cons q qs ih => intro db hs; exact ih _ (handle_schema db q hs)

/-! ## The AUTOINCREMENT counter along a sequence -/

theorem run_append (qs1 qs2 : List Request) :
    ∀ db : Db, run db (qs1 ++ qs2) = run (run db qs1) qs2 := by
  induction qs1 with
  | nil => intro db; rfl
  | cons q qs ih => intro db; simp only [List.cons_append, run]; exact ih _

theorem insertUser_some (db db' : Db) (b : Body) (i : Nat)
    (hins : insertUser db b = some (db', i)) :
    i = nextRowid db ∧ db' = ⟨db.rows ++ [mkRow (nextRowid db) b], nextRowid db⟩ := by
  unfold insertUser at hins
  split at hins
  · simp only [Option.some.injEq, Prod.mk.injEq] at hins
    exact ⟨hins.2.symm, hins.1.symm⟩
  · exact absurd hins (by simp)

theorem updateUser_seq (db db' : Db) (id : Nat) (b : Body)
    (hup : updateUser db id b = some db') :
    db'.seq = db.seq ∧ db'.rows.map (fun r => r.id) = db.rows.map (fun r => r.id) := by
  unfold updateUser at hup
  split at hup
  · split at hup
    · simp only [Option.some.injEq] at hup
      subst hup
      refine ⟨rfl, ?_⟩
      simp only [List.map_map]
      apply List.map_congr_left
      intro x _
      by_cases hx : x.id = id <;> simp [hx, mkRow]
    · exact absurd hup (by simp)
  · simp only [Option.some.injEq] at hup
    subst hup
    exact ⟨rfl, rfl⟩

theorem postUsers_created (f : Faults) (db : Db) (b : Body) (i : Nat)
    (h : createdId (postUsers f db b).res = some i) :
    i = toNumber (nextRowid db) ∧ (postUsers f db b).db.seq = nextRowid db ∧
      mkRow (nextRowid db) b ∈ (postUsers f db b).db.rows := by
  cases hl : f.lookup
  · cases hsel : selectByEmail db b.email with
    | some r => simp [postUsers, hl, hsel, createdId] at h
    | none =>
      cases hw : f.write
      · cases hins : insertUser db b with
        | none => simp [postUsers, hl, hsel, hw, hins, dbError, createdId] at h
        | some p =>
          obtain ⟨db', j⟩ := p
          simp only [postUsers, hl, hsel, hw, hins, createdId, Bool.false_eq_true, if_false,
            Option.some.injEq] at h
          obtain ⟨hj, hdb⟩ := insertUser_some db db' b j hins
          subst h
          simp [postUsers, hl, hsel, hw, hins, hj, hdb]
      · simp [postUsers, hl, hsel, hw, dbError, createdId] at h
  · simp [postUsers, hl, dbError, createdId] at h

theorem handle_created (db : Db) (q : Request) (i : Nat)
    (h : createdId (handle db q).res = some i) :
    db.seq < (handle db q).db.seq ∧ i = toNumber (handle db q).db.seq := by
  cases q with
  | get f =>
    simp only [handle, getUsers] at h
    split at h <;> simp [dbError, createdId] at h
  | post f b =>
    obtain ⟨hi, hseq, _⟩ := postUsers_created f db b i h
    simp only [handle]
    rw [hseq]
    exact ⟨seq_lt_nextRowid db, hi⟩
  | put f id b =>
    simp only [handle, putUsers] at h
    split at h
    · simp [dbError, createdId] at h
    · split at h
      · simp [notFound, createdId] at h
      · split at h
        · simp [dbError, createdId] at h
        · split at h <;> simp [dbError, createdId] at h
  | delete f id =>
    simp only [handle, deleteUsers] at h
    split at h
    · simp [dbError, createdId] at h
    · split at h
      · simp [notFound, createdId] at h
      · split at h <;> simp [dbError, createdId] at h

theorem handle_seq_mono (db : Db) (q : Request) : db.seq ≤ (handle db q).db.seq := by
  cases q with
  | get f =>
    simp only [handle, getUsers]
    split <;> exact Nat.le_refl _
  | post f b =>
    simp only [handle, postUsers]
    split
    · exact Nat.le_refl _
    · split
      · exact Nat.le_refl _
      · split
        · exact Nat.le_refl _
        · split
          · exact Nat.le_refl _
          · rename_i db' i hins
            obtain ⟨_, hdb⟩ := insertUser_some db db' b i hins
            rw [hdb]
            exact Nat.le_of_lt (seq_lt_nextRowid db)
  | put f id b =>
    simp only [handle, putUsers]
    split
    · exact Nat.le_refl _
    · split
      · exact Nat.le_refl _
      · split
        · exact Nat.le_refl _
        · split
          · exact Nat.le_refl _
          · rename_i db' hup
            exact Nat.le_of_eq (updateUser_seq db db' id b hup).1.symm
  | delete f id =>
    simp only [handle, deleteUsers]
    split
    · exact Nat.le_refl _
    · split
      · exact Nat.le_refl _
      · split
        · exact Nat.le_refl _
        · exact Nat.le_refl _

theorem handle_bounded (db : Db) (q : Request) (hb : Bounded db) :
    Bounded (handle db q).db := by
  cases q with
  | get f =>
    simp only [handle, getUsers]
    split <;> exact hb
  | post f b =>
    simp only [handle, postUsers]
    split
    · exact hb
    · split
      · exact hb
      · split
        · exact hb
        · split
          · exact hb
          · rename_i db' i hins
            obtain ⟨_, hdb⟩ := insertUser_some db db' b i hins
            rw [hdb]
            intro x hx
            rcases List.mem_append.1 hx with h | h
            · exact Nat.le_of_lt (lt_nextRowid db x h)
            · rw [List.mem_singleton] at h
              subst h
              exact Nat.le_refl _
  | put f id b =>
    simp only [handle, putUsers]
    split
    · exact hb
    · split
      · exact hb
      · split
        · exact hb
        · split
          · exact hb
          · rename_i db' hup
            obtain ⟨hseq, hids⟩ := updateUser_seq db db' id b hup
            intro x hx
            have hmem : x.id ∈ db'.rows.map (fun r => r.id) := List.mem_map_of_mem _ hx
            rw [hids] at hmem
            obtain ⟨y, hy, hyx⟩ := List.mem_map.1 hmem
            rw [hseq, ← hyx]
            exact hb y hy
  | delete f id =>
    simp only [handle, deleteUsers]
    split
    · exact hb
    · split
      · exact hb
      · split
        · exact hb
        · intro x hx
          exact hb x (List.mem_filter.1 hx).1

theorem run_seq_mono (qs : List Request) : ∀ db : Db, db.seq ≤ (run db qs).seq := by
  induction qs with
  | nil => intro db; exact Nat.le_refl _
  | cons q qs ih => intro db; exact Nat.le_trans (handle_seq_mono db q) (ih _)

theorem run_bounded (qs : List Request) : ∀ db : Db, Bounded db → Bounded (run db qs) := by
  induction qs with
  | nil => intro db hb; exact hb
  | cons q qs ih => intro db hb; exact ih _ (handle_bounded db q hb)

theorem createdIds_cons (db : Db) (q : Request) (qs : List Request) :
    createdIds db (q :: qs)
      = (match createdId (handle db q).res with
          | some i => i :: createdIds (handle db q).db qs
          | none => createdIds (handle db q).db qs) := by
  cases h : createdId (handle db q).res <;>
    simp [createdIds, responses, List.filterMap_cons, h]

theorem mem_createdIds_bounds (qs : List Request) :
    ∀ (db : Db) (i : Nat), i ∈ createdIds db qs →
      ∃ k, i = toNumber k ∧ db.seq < k ∧ k ≤ (run db qs).seq := by
  induction qs with
  | nil => intro db i hi; simp [createdIds, responses] at hi
  | cons q qs ih =>
    intro db i hi
    rw [createdIds_cons] at hi
    have hmono := handle_seq_mono db q
    have htail : ∀ j, j ∈ createdIds (handle db q).db qs →
        ∃ k, j = toNumber k ∧ db.seq < k ∧ k ≤ (run db (q :: qs)).seq := by
      intro j hj
      obtain ⟨k, hk1, hk2, hk3⟩ := ih _ j hj
      exact ⟨k, hk1, Nat.lt_of_le_of_lt hmono hk2, hk3⟩
    cases hc : createdId (handle db q).res with
    | none =>
      rw [hc] at hi
      exact htail i hi
    | some j =>
      rw [hc] at hi
      rcases List.mem_cons.1 hi with h | h
      · obtain ⟨h1, h2⟩ := handle_created db q j hc
        exact ⟨(handle db q).db.seq, h ▸ h2, h1, run_seq_mono qs _⟩
      · exact htail i h

theorem createdIds_increasing (qs : List Request) :
    ∀ db : Db, (run db qs).seq < 2 ^ 53 →
      (createdIds db qs).Pairwise (fun i j => i < j) := by
  induction qs with
  | nil => intro db _; simp [createdIds, responses]
  | cons q qs ih =>
    intro db hfin
    rw [createdIds_cons]
    cases hc : createdId (handle db q).res with
    | none => exact ih _ hfin
    | some j =>
      refine List.Pairwise.cons ?_ (ih _ hfin)
      intro i hi
      obtain ⟨k, hk1, hk2, hk3⟩ := mem_createdIds_bounds qs _ i hi
      obtain ⟨_, hj⟩ := handle_created db q j hc
      have hk : k < 2 ^ 53 := Nat.lt_of_le_of_lt hk3 hfin
      have hs : (handle db q).db.seq < 2 ^ 53 := Nat.lt_trans hk2 hk
      rw [hj, hk1, toNumber_of_lt _ hs, toNumber_of_lt _ hk]
      exact hk2

theorem responses_append (qs1 qs2 : List Request) :
    ∀ db : Db, responses db (qs1 ++ qs2) = responses db qs1 ++ responses (run db qs1) qs2 := by
  induction qs1 with
  | nil => intro db; rfl
  | cons q qs ih =>
    intro db
    show (handle db q).res :: responses (handle db q).db (qs ++ qs2) = _
    rw [ih]
    rfl

theorem createdIds_append (db : Db) (qs1 qs2 : List Request) :
    createdIds db (qs1 ++ qs2) = createdIds db qs1 ++ createdIds (run db qs1) qs2 := by
  simp only [createdIds, responses_append, List.filterMap_append]

theorem run_churn (n : Nat) : run emptyDb (churn n) = ⟨[], n⟩ := by
  induction n with
  | zero => rfl
  | succ n ih =>
    simp only [churn]
    rw [run_append, ih]
    simp [run, handle, postUsers, deleteUsers, noFaults, selectByEmail, selectById,
      insertUser, notNullOk, uniqueOk, nextRowid, maxRowid, mkRow, deleteUser]

/-! ## The handlers, request by request -/

/-- C1: `POST /users` with the email of an existing row, the lookup meeting no
driver error: the answer is 400 `User with this email already exists`, the only
statement sent is the lookup (no INSERT), and the table is the one before. -/
theorem post_duplicate_email_rejected (f : Faults) (db : Db) (b : Body) (r : Row)
    (hf : f.lookup = false) (hr : r ∈ db.rows) (hnn : r.email ≠ none)
    (he : b.email = r.email) :
    (postUsers f db b).res = ⟨400, .message "User with this email already exists"⟩ ∧
      (postUsers f db b).log = [.selectByEmail b.email] ∧
      (∀ b', Stmt.insert b' ∉ (postUsers f db b).log) ∧
      (postUsers f db b).db = db := by
  obtain ⟨r', hr'⟩ := selectByEmail_of_mem db r hr hnn
  simp [postUsers, hf, he, hr']

theorem post_duplicate_email_rejected_witness :
    (postUsers ⟨false, true⟩ ⟨[⟨1, some "Ann", some "Lee", some "ann@x.org", some "Ops"⟩], 1⟩
        ⟨some "Bob", none, some "ann@x.org", some "IT"⟩).res
        = ⟨400, .message "User with this email already exists"⟩ ∧
      (postUsers ⟨false, true⟩ ⟨[⟨1, some "Ann", some "Lee", some "ann@x.org", some "Ops"⟩], 1⟩
        ⟨some "Bob", none, some "ann@x.org", some "IT"⟩).db
        = ⟨[⟨1, some "Ann", some "Lee", some "ann@x.org", some "Ops"⟩], 1⟩ :=
  have h := post_duplicate_email_rejected ⟨false, true⟩
    ⟨[⟨1, some "Ann", some "Lee", some "ann@x.org", some "Ops"⟩], 1⟩
    ⟨some "Bob", none, some "ann@x.org", some "IT"⟩
    ⟨1, some "Ann", some "Lee", some "ann@x.org", some "Ops"⟩
    rfl (by simp) (by simp) rfl
  ⟨h.1, h.2.2.2⟩

/-- C5: `PUT /users/:id` and `DELETE /users/:id` on an id no row has, the lookup
meeting no driver error: both answer 404 `User not found`, the only statement
sent is the lookup (no UPDATE, no DELETE), and the table is the one before,
whatever the body of the PUT. -/
theorem put_delete_missing_row_not_found (f : Faults) (db : Db) (id : Nat) (b : Body)
    (hf : f.lookup = false) (hmiss : ∀ r ∈ db.rows, r.id ≠ id) :
    putUsers f db id b = ⟨⟨404, .message "User not found"⟩, db, [.selectById id]⟩ ∧
      deleteUsers f db id = ⟨⟨404, .message "User not found"⟩, db, [.selectById id]⟩ := by
  have h := (selectById_eq_none_iff db id).2 hmiss
  simp [putUsers, deleteUsers, hf, h, notFound]

theorem put_delete_missing_row_not_found_witness :
    putUsers noFaults ⟨[⟨1, some "Ann", some "Lee", some "ann@x.org", some "Ops"⟩], 1⟩ 2
        ⟨none, none, some "ann@x.org", none⟩
      = ⟨⟨404, .message "User not found"⟩,
          ⟨[⟨1, some "Ann", some "Lee", some "ann@x.org", some "Ops"⟩], 1⟩, [.selectById 2]⟩ ∧
    deleteUsers noFaults ⟨[⟨1, some "Ann", some "Lee", some "ann@x.org", some "Ops"⟩], 1⟩ 2
      = ⟨⟨404, .message "User not found"⟩,
          ⟨[⟨1, some "Ann", some "Lee", some "ann@x.org", some "Ops"⟩], 1⟩, [.selectById 2]⟩ :=
  put_delete_missing_row_not_found noFaults
    ⟨[⟨1, some "Ann", some "Lee", some "ann@x.org", some "Ops"⟩], 1⟩ 2
    ⟨none, none, some "ann@x.org", none⟩ rfl (by simp)

/-- C6, as amended: `GET /users`, the query meeting no driver error: the answer
is 200 with an array of one entry per row of the table, in the order of the
table (the empty array for the empty table), each entry having the four text
fields of its row and the id of its row as a JavaScript number; when every id
is below 2^53 the array is exactly the rows of the table; and the table is the
one before. -/
theorem get_returns_whole_table (f : Faults) (db : Db) (hf : f.lookup = false) :
    (getUsers f db).res
        = ⟨200, .rows (db.rows.map (fun r =>
            ⟨toNumber r.id, r.firstName, r.lastName, r.email, r.department⟩))⟩ ∧
      ((∀ r ∈ db.rows, r.id < 2 ^ 53) → (getUsers f db).res = ⟨200, .rows db.rows⟩) ∧
      (getUsers f db).db = db ∧
      (getUsers f db).log = [.selectAll] ∧
      (db.rows = [] → (getUsers f db).res = ⟨200, .rows []⟩) := by
  have hres : (getUsers f db).res = ⟨200, .rows (db.rows.map jsonRow)⟩ := by
    simp [getUsers, hf, selectAll]
  refine ⟨hres, ?_, ?_, ?_, ?_⟩
  · intro hlt
    rw [hres, map_jsonRow_of_lt db.rows hlt]
  · simp [getUsers, hf]
  · simp [getUsers, hf]
  · intro hnil
    rw [hres, hnil]
    rfl

theorem get_returns_whole_table_witness :
    (getUsers noFaults ⟨[⟨1, some "Ann", some "Lee", some "ann@x.org", some "Ops"⟩], 1⟩).res
      = ⟨200, .rows [⟨1, some "Ann", some "Lee", some "ann@x.org", some "Ops"⟩]⟩ :=
  (get_returns_whole_table noFaults
    ⟨[⟨1, some "Ann", some "Lee", some "ann@x.org", some "Ops"⟩], 1⟩ rfl).2.1
    (by decide)

/-- C6 as stated fails: on a table holding the ids 2^53 and 2^53 + 1 the array
of `GET /users` shows the id 9007199254740992 twice, so it is not the rows of
the table. -/
theorem get_ids_collide_above_2_pow_53 :
    (getUsers noFaults
        ⟨[⟨9007199254740992, some "Ann", some "Lee", some "ann@x.org", some "Ops"⟩,
          ⟨9007199254740993, some "Bob", some "Ray", some "bob@x.org", some "IT"⟩],
          9007199254740993⟩).res
      = ⟨200, .rows
          [⟨9007199254740992, some "Ann", some "Lee", some "ann@x.org", some "Ops"⟩,
           ⟨9007199254740992, some "Bob", some "Ray", some "bob@x.org", some "IT"⟩]⟩ ∧
    (getUsers noFaults
        ⟨[⟨9007199254740992, some "Ann", some "Lee", some "ann@x.org", some "Ops"⟩,
          ⟨9007199254740993, some "Bob", some "Ray", some "bob@x.org", some "IT"⟩],
          9007199254740993⟩).res
      ≠ ⟨200, .rows
          [⟨9007199254740992, some "Ann", some "Lee", some "ann@x.org", some "Ops"⟩,
           ⟨9007199254740993, some "Bob", some "Ray", some "bob@x.org", some "IT"⟩]⟩ := by
  decide

/-- C2, as amended: `POST /users` with four non-null fields and an email no row
holds, no driver error: the answer is 201 `{id, message: 'User created
successfully'}`, and the table afterwards is the table before followed by the
one new row `(id, firstName, lastName, email, department)` with the four
supplied values and an id that no row of the table before has. The returned id
is the id of the new row as a JavaScript number, and is that id itself whenever
it is below 2^53. -/
theorem post_creates_exactly_one_row (f : Faults) (db : Db) (b : Body)
    (hf1 : f.lookup = false) (hf2 : f.write = false)
    (h1 : b.firstName ≠ none) (h2 : b.lastName ≠ none) (h3 : b.email ≠ none)
    (h4 : b.department ≠ none) (hfree : ∀ r ∈ db.rows, r.email ≠ b.email) :
    ∃ id : Nat,
      (postUsers f db b).res = ⟨201, .created (toNumber id) "User created successfully"⟩ ∧
      (id < 2 ^ 53 →
        (postUsers f db b).res = ⟨201, .created id "User created successfully"⟩) ∧
      (∀ r ∈ db.rows, r.id ≠ id) ∧
      (postUsers f db b).db.rows
        = db.rows ++ [⟨id, b.firstName, b.lastName, b.email, b.department⟩] ∧
      (postUsers f db b).db.rows.length = db.rows.length + 1 ∧
      (∀ r ∈ db.rows, r ∈ (postUsers f db b).db.rows) ∧
      (postUsers f db b).log = [.selectByEmail b.email, .insert b] := by
  have hsel : selectByEmail db b.email = none := by
    rw [selectByEmail_eq_none_iff]
    intro r hr
    cases h : sqlEq r.email b.email with
    | false => rfl
    | true => exact absurd ((sqlEq_eq_true_iff _ _).1 h).2 (hfree r hr)
  have huniq : uniqueOk db b.email = true :=
    (uniqueOk_eq_true_iff db b.email).2 ((selectByEmail_eq_none_iff db b.email).1 hsel)
  have hnn : notNullOk b = true := (notNullOk_eq_true_iff b).2 ⟨h1, h2, h3, h4⟩
  have hres : (postUsers f db b).res
      = ⟨201, .created (toNumber (nextRowid db)) "User created successfully"⟩ := by
    simp [postUsers, hf1, hf2, hsel, insertUser, hnn, huniq]
  refine ⟨nextRowid db, hres, ?_, ?_, ?_, ?_, ?_, ?_⟩
  · intro hlt
    rw [hres, toNumber_of_lt _ hlt]
  · intro r hr
    exact Nat.ne_of_lt (lt_nextRowid db r hr)
  · simp [postUsers, hf1, hf2, hsel, insertUser, hnn, huniq, mkRow]
  · simp [postUsers, hf1, hf2, hsel, insertUser, hnn, huniq]
  · intro r hr
    simp [postUsers, hf1, hf2, hsel, insertUser, hnn, huniq, hr]
  · simp [postUsers, hf1, hf2, hsel, insertUser, hnn, huniq]

theorem post_creates_exactly_one_row_witness :
    (postUsers noFaults ⟨[⟨3, some "Ann", some "Lee", some "ann@x.org", some "Ops"⟩], 5⟩
        ⟨some "Bob", some "Ray", some "bob@x.org", some "IT"⟩).db.rows.length
        = [(⟨3, some "Ann", some "Lee", some "ann@x.org", some "Ops"⟩ : Row)].length + 1 ∧
      (postUsers noFaults ⟨[⟨3, some "Ann", some "Lee", some "ann@x.org", some "Ops"⟩], 5⟩
        ⟨some "Bob", some "Ray", some "bob@x.org", some "IT"⟩).log
        = [.selectByEmail (some "bob@x.org"),
            .insert ⟨some "Bob", some "Ray", some "bob@x.org", some "IT"⟩] :=
  (post_creates_exactly_one_row noFaults
    ⟨[⟨3, some "Ann", some "Lee", some "ann@x.org", some "Ops"⟩], 5⟩
    ⟨some "Bob", some "Ray", some "bob@x.org", some "IT"⟩
    rfl rfl (by simp) (by simp) (by simp) (by simp) (by simp)).elim
    (fun _ h => ⟨h.2.2.2.2.1, h.2.2.2.2.2.2⟩)

/-- C2 as stated fails: on a table whose one row has id 2^53, a POST with four
non-null fields and a new email is answered 201 with id 9007199254740992, the
id of the row already there, while the row it stores has id 9007199254740993. -/
theorem post_returned_id_not_stored_id :
    (postUsers noFaults
        ⟨[⟨9007199254740992, some "Ann", some "Lee", some "ann@x.org", some "Ops"⟩],
          9007199254740992⟩
        ⟨some "Bob", some "Ray", some "bob@x.org", some "IT"⟩).res
      = ⟨201, .created 9007199254740992 "User created successfully"⟩ ∧
    (postUsers noFaults
        ⟨[⟨9007199254740992, some "Ann", some "Lee", some "ann@x.org", some "Ops"⟩],
          9007199254740992⟩
        ⟨some "Bob", some "Ray", some "bob@x.org", some "IT"⟩).db.rows
      = [⟨9007199254740992, some "Ann", some "Lee", some "ann@x.org", some "Ops"⟩,
         ⟨9007199254740993, some "Bob", some "Ray", some "bob@x.org", some "IT"⟩] := by
  decide

/-- C10: `POST /users` with at least one of the four fields absent or null, and
an email (when there is one) that no row holds: the duplicate-email lookup
finds no row, the INSERT is rejected with a NOT NULL constraint violated, the
answer is 500 `Database error` and not 201, and the table is the one before. -/
theorem post_missing_field_never_stored (f : Faults) (db : Db) (b : Body)
    (hmiss : b.firstName = none ∨ b.lastName = none ∨ b.email = none ∨ b.department = none)
    (hfree : ∀ e, b.email = some e → ∀ r ∈ db.rows, r.email ≠ some e) :
    selectByEmail db b.email = none ∧
      notNullOk b = false ∧
      insertUser db b = none ∧
      (postUsers f db b).res = ⟨500, .error "Database error"⟩ ∧
      (postUsers f db b).res.status ≠ 201 ∧
      (postUsers f db b).db = db ∧
      (f.lookup = false → (postUsers f db b).log = [.selectByEmail b.email, .insert b]) := by
  have hsel : selectByEmail db b.email = none := by
    rw [selectByEmail_eq_none_iff]
    intro r hr
    cases h : sqlEq r.email b.email with
    | false => rfl
    | true =>
      have h' := (sqlEq_eq_true_iff _ _).1 h
      cases hb : b.email with
      | none => rw [hb] at h'; exact absurd h'.2 h'.1
      | some e => rw [hb] at h'; exact absurd h'.2 (hfree e hb r hr)
  have hnn : notNullOk b = false := by
    cases hb : notNullOk b with
    | false => rfl
    | true =>
      obtain ⟨a1, a2, a3, a4⟩ := (notNullOk_eq_true_iff b).1 hb
      rcases hmiss with h | h | h | h
      · exact absurd h a1
      · exact absurd h a2
      · exact absurd h a3
      · exact absurd h a4
  have hins : insertUser db b = none := by simp [insertUser, hnn]
  refine ⟨hsel, hnn, hins, ?_, ?_, ?_, ?_⟩
  · cases hl : f.lookup <;> cases hw : f.write <;>
      simp [postUsers, hl, hw, hsel, hins, dbError]
  · cases hl : f.lookup <;> cases hw : f.write <;>
      simp [postUsers, hl, hw, hsel, hins, dbError]
  · cases hl : f.lookup <;> cases hw : f.write <;>
      simp [postUsers, hl, hw, hsel, hins]
  · intro hl
    cases hw : f.write <;> simp [postUsers, hl, hw, hsel, hins]

theorem post_missing_field_never_stored_witness :
    (postUsers noFaults ⟨[⟨1, some "Ann", some "Lee", some "ann@x.org", some "Ops"⟩], 1⟩
        ⟨some "Bob", none, some "bob@x.org", some "IT"⟩).res
        = ⟨500, .error "Database error"⟩ ∧
      (postUsers noFaults ⟨[⟨1, some "Ann", some "Lee", some "ann@x.org", some "Ops"⟩], 1⟩
        ⟨some "Bob", none, some "bob@x.org", some "IT"⟩).db
        = ⟨[⟨1, some "Ann", some "Lee", some "ann@x.org", some "Ops"⟩], 1⟩ :=
  have h := post_missing_field_never_stored noFaults
    ⟨[⟨1, some "Ann", some "Lee", some "ann@x.org", some "Ops"⟩], 1⟩
    ⟨some "Bob", none, some "bob@x.org", some "IT"⟩
    (Or.inr (Or.inl rfl)) (by simp)
  ⟨h.2.2.2.1, h.2.2.2.2.2.1⟩

/-- C3: `PUT /users/:id` on the id of an existing row, the UPDATE being sent
and raising no error: the answer is 204 with an empty body, the row with that
id afterwards is `(id, firstName, lastName, email, department)` with the
supplied values, every row with another id is as before, and the ids and the
number of rows are as before. -/
theorem put_overwrites_only_addressed_row (f : Faults) (db : Db) (id : Nat) (b : Body)
    (r : Row) (hf1 : f.lookup = false) (hf2 : f.write = false)
    (hr : r ∈ db.rows) (hid : r.id = id) (hok : updateUser db id b ≠ none) :
    (putUsers f db id b).res = ⟨204, .empty⟩ ∧
      (⟨id, b.firstName, b.lastName, b.email, b.department⟩ : Row)
        ∈ (putUsers f db id b).db.rows ∧
      (∀ x ∈ (putUsers f db id b).db.rows, x.id = id →
        x = ⟨id, b.firstName, b.lastName, b.email, b.department⟩) ∧
      (∀ x : Row, x.id ≠ id → (x ∈ (putUsers f db id b).db.rows ↔ x ∈ db.rows)) ∧
      (putUsers f db id b).db.rows.map (fun x => x.id) = db.rows.map (fun x => x.id) ∧
      (putUsers f db id b).db.rows.length = db.rows.length := by
  subst hid
  obtain ⟨_, _, hup⟩ := updateUser_of_ok db b r hr hok
  obtain ⟨r', hsel⟩ := selectById_of_mem db r hr
  have hout : (putUsers f db r.id b) =
      ⟨⟨204, .empty⟩,
        ⟨db.rows.map (fun x => if x.id == r.id then mkRow x.id b else x), db.seq⟩,
        [.selectById r.id, .update r.id b]⟩ := by
    simp [putUsers, hf1, hf2, hsel, hup]
  rw [hout]
  refine ⟨rfl, ?_, ?_, ?_, ?_, ?_⟩
  · exact List.mem_map.2 ⟨r, hr, by simp [mkRow]⟩
  · intro x hx hxid
    obtain ⟨y, _, hy⟩ := List.mem_map.1 hx
    by_cases hyid : y.id = r.id
    · simp [hyid, mkRow] at hy
      exact hy.symm
    · have : x = y := by simpa [hyid] using hy.symm
      exact absurd (this ▸ hxid) hyid
  · intro x hx
    constructor
    · intro hmem
      obtain ⟨y, hy, hyx⟩ := List.mem_map.1 hmem
      by_cases hyid : y.id = r.id
      · simp [hyid, mkRow] at hyx
        exact absurd (hyx ▸ rfl) hx
      · have : y = x := by simpa [hyid] using hyx
        exact this ▸ hy
    · intro hmem
      exact List.mem_map.2 ⟨x, hmem, by simp [hx]⟩
  · simp only [List.map_map]
    apply List.map_congr_left
    intro x _
    by_cases hx : x.id = r.id <;> simp [hx, mkRow]
  · simp

theorem put_overwrites_only_addressed_row_witness :
    (putUsers noFaults
        ⟨[⟨1, some "Ann", some "Lee", some "ann@x.org", some "Ops"⟩,
          ⟨2, some "Bob", some "Ray", some "bob@x.org", some "IT"⟩], 2⟩ 2
        ⟨some "Rob", some "Ray", some "rob@x.org", some "HR"⟩).res = ⟨204, .empty⟩ ∧
      (putUsers noFaults
        ⟨[⟨1, some "Ann", some "Lee", some "ann@x.org", some "Ops"⟩,
          ⟨2, some "Bob", some "Ray", some "bob@x.org", some "IT"⟩], 2⟩ 2
        ⟨some "Rob", some "Ray", some "rob@x.org", some "HR"⟩).db.rows.length = 2 :=
  have h := put_overwrites_only_addressed_row noFaults
    ⟨[⟨1, some "Ann", some "Lee", some "ann@x.org", some "Ops"⟩,
      ⟨2, some "Bob", some "Ray", some "bob@x.org", some "IT"⟩], 2⟩ 2
    ⟨some "Rob", some "Ray", some "rob@x.org", some "HR"⟩
    ⟨2, some "Bob", some "Ray", some "bob@x.org", some "IT"⟩
    rfl rfl (by simp) rfl (by decide)
  ⟨h.1, h.2.2.2.2.2⟩

/-- C4: `DELETE /users/:id` on the id of an existing row of a table whose ids
are distinct, no driver error: the answer is 204 with an empty body, no row of
the table afterwards has that id, every row with another id is there as before,
and there is exactly one row fewer. -/
theorem delete_removes_only_addressed_row (f : Faults) (db : Db) (id : Nat) (r : Row)
    (hf1 : f.lookup = false) (hf2 : f.write = false) (hpk : UniqueIds db)
    (hr : r ∈ db.rows) (hid : r.id = id) :
    (deleteUsers f db id).res = ⟨204, .empty⟩ ∧
      (∀ x ∈ (deleteUsers f db id).db.rows, x.id ≠ id) ∧
      (∀ x : Row, x.id ≠ id → (x ∈ (deleteUsers f db id).db.rows ↔ x ∈ db.rows)) ∧
      (deleteUsers f db id).db.rows.length + 1 = db.rows.length ∧
      (deleteUsers f db id).log = [.selectById id, .delete id] := by
  subst hid
  obtain ⟨r', hsel⟩ := selectById_of_mem db r hr
  have hout : deleteUsers f db r.id =
      ⟨⟨204, .empty⟩, ⟨db.rows.filter (fun x => x.id != r.id), db.seq⟩,
        [.selectById r.id, .delete r.id]⟩ := by
    simp [deleteUsers, hf1, hf2, hsel, deleteUser]
  rw [hout]
  refine ⟨rfl, ?_, ?_, ?_, rfl⟩
  · intro x hx
    simpa using (List.mem_filter.1 hx).2
  · intro x hx
    simp [List.mem_filter, hx]
  · exact length_filter_ne_id db.rows r hpk hr

theorem delete_removes_only_addressed_row_witness :
    (deleteUsers noFaults
        ⟨[⟨1, some "Ann", some "Lee", some "ann@x.org", some "Ops"⟩,
          ⟨2, some "Bob", some "Ray", some "bob@x.org", some "IT"⟩], 2⟩ 1).res
        = ⟨204, .empty⟩ ∧
      (deleteUsers noFaults
        ⟨[⟨1, some "Ann", some "Lee", some "ann@x.org", some "Ops"⟩,
          ⟨2, some "Bob", some "Ray", some "bob@x.org", some "IT"⟩], 2⟩ 1).db.rows.length + 1
        = 2 :=
  have h := delete_removes_only_addressed_row noFaults
    ⟨[⟨1, some "Ann", some "Lee", some "ann@x.org", some "Ops"⟩,
      ⟨2, some "Bob", some "Ray", some "bob@x.org", some "IT"⟩], 2⟩ 1
    ⟨1, some "Ann", some "Lee", some "ann@x.org", some "Ops"⟩
    rfl rfl (by simp [UniqueIds]) (by simp) rfl
  ⟨h.1, h.2.2.2.1⟩

/-- C9, as amended: `PUT /users/:id` on the id of an existing row. When another
row holds the body's email, the handler sends no email lookup, the UPDATE is
rejected with the UNIQUE constraint violated, the answer is 500 `Database
error` (neither 204 nor 400) and the table is the one before. When the body's
email is the addressed row's own email, the other three fields are non-null, the
table satisfies its schema and no driver error occurs, the answer is 204. -/
theorem put_cannot_duplicate_email (f : Faults) (db : Db) (id : Nat) (b : Body) (r : Row)
    (hr : r ∈ db.rows) (hid : r.id = id) :
    (∀ o ∈ db.rows, o.id ≠ id → o.email ≠ none → o.email = b.email →
        uniqueOkExcept db id b.email = false ∧
        updateUser db id b = none ∧
        (putUsers f db id b).res = ⟨500, .error "Database error"⟩ ∧
        (putUsers f db id b).res.status ≠ 204 ∧
        (putUsers f db id b).res.status ≠ 400 ∧
        (putUsers f db id b).db = db ∧
        (∀ e, Stmt.selectByEmail e ∉ (putUsers f db id b).log) ∧
        (f.lookup = false → (putUsers f db id b).log = [.selectById id, .update id b])) ∧
      (Schema db → f.lookup = false → f.write = false → b.email = r.email →
        b.firstName ≠ none → b.lastName ≠ none → b.department ≠ none →
        (putUsers f db id b).res = ⟨204, .empty⟩) := by
  subst hid
  obtain ⟨r', hsel⟩ := selectById_of_mem db r hr
  have hany := any_id_of_mem db r hr
  constructor
  · intro o ho hoid honn hoe
    have huniq : uniqueOkExcept db r.id b.email = false := by
      have : db.rows.any (fun x => x.id != r.id && sqlEq x.email b.email) = true := by
        rw [List.any_eq_true]
        refine ⟨o, ho, ?_⟩
        have h2 : sqlEq o.email b.email = true := (sqlEq_eq_true_iff _ _).2 ⟨honn, hoe⟩
        simp [hoid, h2]
      simp [uniqueOkExcept, this]
    have hup : updateUser db r.id b = none := by
      simp [updateUser, hany, huniq]
    refine ⟨huniq, hup, ?_, ?_, ?_, ?_, ?_, ?_⟩
    · cases hl : f.lookup <;> cases hw : f.write <;>
        simp [putUsers, hl, hw, hsel, hup, dbError]
    · cases hl : f.lookup <;> cases hw : f.write <;>
        simp [putUsers, hl, hw, hsel, hup, dbError]
    · cases hl : f.lookup <;> cases hw : f.write <;>
        simp [putUsers, hl, hw, hsel, hup, dbError]
    · cases hl : f.lookup <;> cases hw : f.write <;>
        simp [putUsers, hl, hw, hsel, hup]
    · intro e
      cases hl : f.lookup <;> cases hw : f.write <;>
        simp [putUsers, hl, hw, hsel, hup]
    · intro hl
      cases hw : f.write <;> simp [putUsers, hl, hw, hsel, hup]
  · intro hschema hl hw he h1 h2 h4
    obtain ⟨_, huq, hnn⟩ := hschema
    have h3 : b.email ≠ none := he ▸ (hnn r hr).2.2.1
    have hnull : notNullOk b = true := (notNullOk_eq_true_iff b).2 ⟨h1, h2, h3, h4⟩
    have huniq : uniqueOkExcept db r.id b.email = true := by
      simp only [uniqueOkExcept, Bool.not_eq_true', List.any_eq_false]
      intro x hx hcon
      simp only [Bool.and_eq_true, bne_iff_ne, ne_eq] at hcon
      have hxe : x.email = r.email := he ▸ ((sqlEq_eq_true_iff _ _).1 hcon.2).2
      have hxr : x = r := List.inj_on_of_nodup_map huq hx hr hxe
      exact hcon.1 (hxr ▸ rfl)
    simp [putUsers, hl, hw, hsel, updateUser, hany, hnull, huniq]

theorem put_cannot_duplicate_email_witness :
    (putUsers noFaults
        ⟨[⟨1, some "Ann", some "Lee", some "ann@x.org", some "Ops"⟩,
          ⟨2, some "Bob", some "Ray", some "bob@x.org", some "IT"⟩], 2⟩ 2
        ⟨some "Rob", some "Ray", some "ann@x.org", some "HR"⟩).res
        = ⟨500, .error "Database error"⟩ ∧
      (putUsers noFaults
        ⟨[⟨1, some "Ann", some "Lee", some "ann@x.org", some "Ops"⟩,
          ⟨2, some "Bob", some "Ray", some "bob@x.org", some "IT"⟩], 2⟩ 2
        ⟨some "Rob", some "Ray", some "bob@x.org", some "HR"⟩).res = ⟨204, .empty⟩ :=
  ⟨((put_cannot_duplicate_email noFaults
      ⟨[⟨1, some "Ann", some "Lee", some "ann@x.org", some "Ops"⟩,
        ⟨2, some "Bob", some "Ray", some "bob@x.org", some "IT"⟩], 2⟩ 2
      ⟨some "Rob", some "Ray", some "ann@x.org", some "HR"⟩
      ⟨2, some "Bob", some "Ray", some "bob@x.org", some "IT"⟩ (by simp) rfl).1
      ⟨1, some "Ann", some "Lee", some "ann@x.org", some "Ops"⟩
      (by simp) (by decide) (by simp) rfl).2.2.1,
   (put_cannot_duplicate_email noFaults
      ⟨[⟨1, some "Ann", some "Lee", some "ann@x.org", some "Ops"⟩,
        ⟨2, some "Bob", some "Ray", some "bob@x.org", some "IT"⟩], 2⟩ 2
      ⟨some "Rob", some "Ray", some "bob@x.org", some "HR"⟩
      ⟨2, some "Bob", some "Ray", some "bob@x.org", some "IT"⟩ (by simp) rfl).2
      (by simp [Schema, UniqueIds, UniqueEmails, NotNullCols, RowNotNull])
      rfl rfl rfl (by simp) (by simp) (by simp)⟩

/-- C9 as stated fails: a PUT whose email is the addressed row's own email and
whose `firstName` is missing is answered 500 `Database error`, not 204. -/
theorem put_own_email_missing_field_not_204 :
    selectById ⟨[⟨1, some "Ann", some "Lee", some "ann@x.org", some "Ops"⟩], 1⟩ 1
        = some ⟨1, some "Ann", some "Lee", some "ann@x.org", some "Ops"⟩ ∧
      (⟨none, some "Lee", some "ann@x.org", some "Ops"⟩ : Body).email
        = (⟨1, some "Ann", some "Lee", some "ann@x.org", some "Ops"⟩ : Row).email ∧
      (putUsers noFaults ⟨[⟨1, some "Ann", some "Lee", some "ann@x.org", some "Ops"⟩], 1⟩ 1
        ⟨none, some "Lee", some "ann@x.org", some "Ops"⟩).res
        = ⟨500, .error "Database error"⟩ ∧
      (putUsers noFaults ⟨[⟨1, some "Ann", some "Lee", some "ann@x.org", some "Ops"⟩], 1⟩ 1
        ⟨none, some "Lee", some "ann@x.org", some "Ops"⟩).res.status ≠ 204 := by
  decide

/-! ## Sequences of requests from the empty table -/

/-- C7: after any finite sequence of GET, POST, PUT and DELETE requests, with
any bodies, ids and driver errors, served from the empty table (whatever value
`s` its id counter has, zero for the table `createTable` makes), (i) no two rows
have the same id, (ii) no two rows have the same email, and (iii) every row has
non-null firstName, lastName, email and department. -/
theorem storage_invariant_from_empty (s : Nat) (qs : List Request) :
    ((run ⟨[], s⟩ qs).rows.map (fun r => r.id)).Nodup ∧
      ((run ⟨[], s⟩ qs).rows.map (fun r => r.email)).Nodup ∧
      (∀ r ∈ (run ⟨[], s⟩ qs).rows,
        r.firstName ≠ none ∧ r.lastName ≠ none ∧ r.email ≠ none ∧ r.department ≠ none) :=
  run_schema qs ⟨[], s⟩ (schema_of_no_rows s)

/-- C8, as amended: in every sequence of requests served from the empty table
(whatever value `s` its id counter has, zero for the table `createTable`
makes), the row a 201 of `POST /users` creates has an id greater than the id of
every row the table held at any earlier point of the sequence, deleted since or
not, and the id the 201 returns is that id as a JavaScript number. While the id
counter stays below 2^53 the returned ids are those ids themselves: they are
strictly increasing in request order and greater than every earlier id. -/
theorem ids_increasing_never_reused (s : Nat) (qs : List Request) :
    ((run ⟨[], s⟩ qs).seq < 2 ^ 53 →
        (createdIds ⟨[], s⟩ qs).Pairwise (fun i j => i < j)) ∧
      (∀ (qs1 qs2 : List Request) (f : Faults) (b : Body) (i : Nat) (r : Row),
        qs1 ++ qs2 = qs → r ∈ (run ⟨[], s⟩ qs1).rows →
        (postUsers f (run ⟨[], s⟩ qs) b).res
          = ⟨201, .created i "User created successfully"⟩ →
        ∃ k : Nat,
          (⟨k, b.firstName, b.lastName, b.email, b.department⟩ : Row)
            ∈ (postUsers f (run ⟨[], s⟩ qs) b).db.rows ∧
          r.id < k ∧ i = toNumber k ∧ (k < 2 ^ 53 → r.id < i)) := by
  refine ⟨createdIds_increasing qs ⟨[], s⟩, ?_⟩
  intro qs1 qs2 f b i r hqs hr hres
  subst hqs
  have hb : Bounded (run ⟨[], s⟩ qs1) :=
    run_bounded qs1 ⟨[], s⟩ (by intro x hx; simp at hx)
  have h1 : r.id ≤ (run ⟨[], s⟩ qs1).seq := hb r hr
  have h2 : (run ⟨[], s⟩ qs1).seq ≤ (run ⟨[], s⟩ (qs1 ++ qs2)).seq := by
    rw [run_append]
    exact run_seq_mono qs2 _
  have hc : createdId (postUsers f (run ⟨[], s⟩ (qs1 ++ qs2)) b).res = some i := by
    simp only [hres, createdId]
  obtain ⟨hi, _, hmem⟩ := postUsers_created f _ b i hc
  have h3 := seq_lt_nextRowid (run ⟨[], s⟩ (qs1 ++ qs2))
  have hlt : r.id < nextRowid (run ⟨[], s⟩ (qs1 ++ qs2)) := by omega
  refine ⟨nextRowid (run ⟨[], s⟩ (qs1 ++ qs2)), hmem, hlt, hi, ?_⟩
  intro hk
  rw [hi, toNumber_of_lt _ hk]
  exact hlt

theorem ids_increasing_never_reused_witness :
    (createdIds ⟨[], 0⟩
        [.post noFaults ⟨some "Ann", some "Lee", some "ann@x.org", some "Ops"⟩,
         .delete noFaults 1,
         .post noFaults ⟨some "Bob", some "Ray", some "bob@x.org", some "IT"⟩]).Pairwise
        (fun i j => i < j) ∧
      (∃ k : Nat,
        (⟨k, some "Bob", some "Ray", some "bob@x.org", some "IT"⟩ : Row)
          ∈ (postUsers noFaults
              (run ⟨[], 0⟩
                [.post noFaults ⟨some "Ann", some "Lee", some "ann@x.org", some "Ops"⟩,
                 .delete noFaults 1])
              ⟨some "Bob", some "Ray", some "bob@x.org", some "IT"⟩).db.rows ∧
        (⟨1, some "Ann", some "Lee", some "ann@x.org", some "Ops"⟩ : Row).id < k ∧
        2 = toNumber k ∧
        (k < 2 ^ 53 →
          (⟨1, some "Ann", some "Lee", some "ann@x.org", some "Ops"⟩ : Row).id < 2)) :=
  ⟨(ids_increasing_never_reused 0
      [.post noFaults ⟨some "Ann", some "Lee", some "ann@x.org", some "Ops"⟩,
       .delete noFaults 1,
       .post noFaults ⟨some "Bob", some "Ray", some "bob@x.org", some "IT"⟩]).1 (by decide),
   (ids_increasing_never_reused 0
      [.post noFaults ⟨some "Ann", some "Lee", some "ann@x.org", some "Ops"⟩,
       .delete noFaults 1]).2
      [.post noFaults ⟨some "Ann", some "Lee", some "ann@x.org", some "Ops"⟩]
      [.delete noFaults 1] noFaults
      ⟨some "Bob", some "Ray", some "bob@x.org", some "IT"⟩ 2
      ⟨1, some "Ann", some "Lee", some "ann@x.org", some "Ops"⟩
      rfl (by decide) (by decide)⟩

/-- C8 as stated fails: after the 2^53 - 1 POST and DELETE pairs of `churn` on
the table `createTable` makes, the table is empty with its counter at 2^53 - 1,
and two further POSTs are both answered 201 with id 9007199254740992, so the
returned ids of the sequence are not strictly increasing. -/
theorem returned_ids_repeat_at_2_pow_53 :
    run emptyDb (churn 9007199254740991) = ⟨[], 9007199254740991⟩ ∧
      createdIds (run emptyDb (churn 9007199254740991))
          [.post noFaults ⟨some "Bob", some "Ray", some "bob@x.org", some "IT"⟩,
           .post noFaults ⟨some "Cy", some "Poe", some "cy@x.org", some "HR"⟩]
        = [9007199254740992, 9007199254740992] ∧
      ¬ (createdIds emptyDb
          (churn 9007199254740991 ++
            [.post noFaults ⟨some "Bob", some "Ray", some "bob@x.org", some "IT"⟩,
             .post noFaults ⟨some "Cy", some "Poe", some "cy@x.org", some "HR"⟩])).Pairwise
          (fun i j => i < j) := by
  have hrun := run_churn 9007199254740991
  have hids : createdIds (run emptyDb (churn 9007199254740991))
      [.post noFaults ⟨some "Bob", some "Ray", some "bob@x.org", some "IT"⟩,
       .post noFaults ⟨some "Cy", some "Poe", some "cy@x.org", some "HR"⟩]
      = [9007199254740992, 9007199254740992] := by
    rw [hrun]
    decide
  refine ⟨hrun, hids, ?_⟩
  intro hp
  rw [createdIds_append, hids] at hp
  have h2 := (List.pairwise_append.1 hp).2.1
  exact absurd (List.rel_of_pairwise_cons h2 (List.mem_singleton.2 rfl)) (by decide)

end UserApi
